import Mathlib

/-!
Verification of the LingoPop service layer.

This file gives a shallow embedding, in Lean, of the parts of the repository
that carry a data-transformation contract, and proves (or refutes) the
specification's statements about them:

* `decodeAudioData` (src/services/geminiService.ts): the raw-PCM decoder that
  reinterprets a byte buffer as interleaved little-endian signed 16-bit
  samples and normalizes them to floats via division by `32768.0`;
* `playAudio` (src/services/geminiService.ts): the primary speech path with
  its platform text-to-speech fallback;
* `lookupTerm` (src/services/geminiService.ts): dictionary lookup whose image
  step is allowed to fail independently;
* `toggleSave` (App.tsx): the notebook save/unsave handler.

Modelling conventions.  Bytes are `Nat` below 256; JavaScript numbers arising
in the decoder are exact rationals (every value the decoder computes,
`v / 32768.0` for a 16-bit integer `v`, is exactly representable in binary
floating point, so `ℚ` models the float arithmetic without error), except
that dividing `undefined` by a number gives NaN, modelled by a separate
constructor.  The external calls of the service layer (the generative-AI
requests) are modelled as oracle inputs: each embedded function takes the
outcome of its external calls as an explicit argument.  The behaviour of the
platform APIs the source calls is modelled from their governing standards:
`new Int16Array(buffer)` throws a `RangeError` when the buffer's byte length
is not a multiple of 2 (ECMAScript), and `AudioContext.createBuffer` throws a
`NotSupportedError` when the channel count or the frame length is zero or
negative (Web Audio API; the implementation-defined upper channel bound is
not modelled).
-/

namespace LingoPop

/-- A JavaScript number as it occurs in the decoder's sample arrays: NaN
(which arises from dividing an `undefined` array read by a number) or an
exact rational. -/
inductive JsNum where
  | nan : JsNum
  | val : ℚ → JsNum
deriving DecidableEq, Repr

/-- Errors the decoding path can raise.  `rangeError` is the ECMAScript
`RangeError` thrown by `new Int16Array(buffer)` on a buffer whose byte length
is not a multiple of 2; `notSupportedError` is the Web Audio
`NotSupportedError` thrown by `createBuffer` on a channel count or frame
length that is zero or negative. -/
inductive DecodeError where
  | rangeError : DecodeError
  | notSupportedError : DecodeError
deriving DecidableEq, Repr

/-- The signed 16-bit integer stored as two bytes, least significant first
(little endian: the byte order of every platform the app targets, hence what
the `Int16Array` view reads). -/
def int16FromBytes (lo hi : Nat) : Int :=
  let u := lo % 256 + 256 * (hi % 256)
  if u < 32768 then (u : Int) else (u : Int) - 65536

/-- Model of `new Int16Array(data.buffer)`: reinterpret the byte list as
little-endian signed 16-bit integers.  Per ECMAScript, constructing the view
throws a `RangeError` when the byte length is not a multiple of 2; that case
is `none`. -/
def int16View : List Nat → Option (List Int)
  | [] => some []
  | [_] => none
  | lo :: hi :: rest => (int16View rest).map (fun l => int16FromBytes lo hi :: l)

/-- The 16-bit little-endian integer at position `j` of a byte list, read
from bytes `2*j` and `2*j+1` (taking 0 past the end); it agrees with the
`int16View` entries wherever those exist. -/
def int16At (data : List Nat) (j : Nat) : Int :=
  int16FromBytes (data.getD (2 * j) 0) (data.getD (2 * j + 1) 0)

/-- A decoded Web Audio `AudioBuffer`: the metadata `createBuffer` received
plus one sample array per channel. -/
structure JsAudioBuffer where
  numberOfChannels : Nat
  length : Nat
  sampleRate : Nat
  channelData : List (List JsNum)
deriving DecidableEq, Repr

/-- Model of `ctx.createBuffer(numberOfChannels, length, sampleRate)`.  Per
the Web Audio API a `NotSupportedError` is thrown when the channel count or
the frame length is negative or zero (the implementation-defined upper bound
on the channel count is not modelled); otherwise the buffer starts
zero-filled. -/
def createBuffer (numberOfChannels : Int) (length : Nat) (sampleRate : Nat) :
    Except DecodeError JsAudioBuffer :=
  if numberOfChannels ≤ 0 ∨ length = 0 then .error .notSupportedError
  else .ok ⟨numberOfChannels.toNat, length, sampleRate,
    List.replicate numberOfChannels.toNat (List.replicate length (JsNum.val 0))⟩

/-- Model of a store `a[i] = v` into a typed array: per ECMAScript an
out-of-range store on a typed array is ignored (`List.set` behaves the same
way). -/
def jsTypedArraySet (a : List JsNum) (i : Nat) (v : JsNum) : List JsNum :=
  a.set i v

/-- Model of the right-hand side `dataInt16[j] / 32768.0`: an in-range read
divides exactly; an out-of-range read yields `undefined`, whose division is
NaN. -/
def jsSampleRead (dataInt16 : List Int) (j : Nat) : JsNum :=
  match dataInt16[j]? with
  | some v => .val ((v : ℚ) / 32768)
  | none => .nan

/-- The inner loop of `decodeAudioData` for one channel:
`for (let i = 0; i < frameCount; i++) channelData[i] = dataInt16[i * numChannels + channel] / 32768.0`.
Because the JavaScript `frameCount` may be fractional, `iters` is the number
of integers below it, which can exceed the allocated length; the excess
stores are ignored by `jsTypedArraySet`. -/
def fillChannel (dataInt16 : List Int) (nc channel iters : Nat)
    (channelData : List JsNum) : List JsNum :=
  (List.range iters).foldl
    (fun acc i => jsTypedArraySet acc i (jsSampleRead dataInt16 (i * nc + channel)))
    channelData

/-- Shallow embedding of `decodeAudioData(data, ctx, sampleRate, numChannels)`
from src/services/geminiService.ts.  `dataInt16` is the `Int16Array` view of
the bytes (RangeError on odd byte length).  The JavaScript
`frameCount = dataInt16.length / numChannels` is an exact rational: the
WebIDL conversion at `createBuffer` truncates it to `bufLen` whole frames
(and `createBuffer` rejects a zero or negative channel count or length),
while the sample loop runs for every integer `i` below the untruncated value
(`iters` of them), its out-of-range stores being ignored. -/
def decodeAudioData (data : List Nat) (sampleRate : Nat) (numChannels : Int) :
    Except DecodeError JsAudioBuffer :=
  match int16View data with
  | none => .error .rangeError
  | some dataInt16 =>
    let nc := numChannels.toNat
    let bufLen := dataInt16.length / nc
    match createBuffer numChannels bufLen sampleRate with
    | .error e => .error e
    | .ok buffer =>
      let iters := (dataInt16.length + nc - 1) / nc
      .ok { buffer with
        channelData := (List.range nc).map
          (fun channel =>
            fillChannel dataInt16 nc channel iters
              (List.replicate bufLen (JsNum.val 0))) }

/-- Read `buffer.getChannelData(c)[i]`: the sample at frame `i` of channel
`c`, `none` when either index is out of range. -/
def sampleAt (buffer : JsAudioBuffer) (c i : Nat) : Option JsNum :=
  (buffer.channelData.getD c [])[i]?

/-- Inverse quantization with rounding, as the specification's round-trip
property describes it: scale a normalized float sample back by `32768` and
round to the nearest integer. -/
def requantize (q : ℚ) : Int := round (q * 32768)

/-- An arbitrary JavaScript exception carried by a rejected promise (network
failure, quota exhaustion, a thrown `Error`, a JSON parse failure, ...). -/
structure JsError where
  message : String
deriving DecidableEq, Repr

/-- Outcome of the `generateContent` text-to-speech call in `playAudio`, as
the caller observes it: `audioData` is the byte string obtained by
base64-decoding `candidates?.[0]?.content?.parts?.[0]?.inlineData?.data`, or
`none` when that optional chain is undefined. -/
structure GenAudioResponse where
  audioData : Option (List Nat)
deriving DecidableEq, Repr

/-- Oracle input to `playAudio`: the outcome of its external
`generateContent` call. -/
structure TtsEnv where
  generateResult : Except JsError GenAudioResponse
deriving Repr

/-- Observable outcome of `playAudio`: either a decoded buffer was handed to
a buffer source and started, or the Web Speech fallback spoke an utterance. -/
inductive PlayAction where
  | playedBuffer : JsAudioBuffer → PlayAction
  | spokeFallback : String → PlayAction
deriving DecidableEq, Repr

/-- Shallow embedding of `playAudio(text, voiceName)` from
src/services/geminiService.ts.  The `try` body awaits the generation call,
throws `Error("No audio data returned")` when the response holds no audio,
and decodes the bytes at 24000 Hz mono; any exception out of the body is
caught and handled by `window.speechSynthesis.speak(new SpeechSynthesisUtterance(text))`. -/
def playAudio (text : String) (env : TtsEnv) : PlayAction :=
  match env.generateResult with
  | .error _ => .spokeFallback text
  | .ok resp =>
    match resp.audioData with
    | none => .spokeFallback text
    | some bytes =>
      match decodeAudioData bytes 24000 1 with
      | .error _ => .spokeFallback text
      | .ok buffer => .playedBuffer buffer

/-- Failure of the primary audio path of `playAudio`: the generation call
rejected, or the response carried no audio data, or decoding the bytes
threw. -/
def primaryPathFails (env : TtsEnv) : Bool :=
  match env.generateResult with
  | .error _ => true
  | .ok resp =>
    match resp.audioData with
    | none => true
    | some bytes =>
      match decodeAudioData bytes 24000 1 with
      | .error _ => true
      | .ok _ => false

/-- An example sentence pair, from types.ts. -/
structure ExampleSentence where
  target : String
  native : String
deriving DecidableEq, Repr

/-- A dictionary entry, from types.ts.  Fields that JavaScript can leave
`undefined` at runtime (the optional fields of the interface, and the
`string` fields that `lookupTerm` copies out of parsed JSON that may lack
them) are `Option`s, `none` standing for `undefined`. -/
structure DictionaryEntry where
  id : String
  term : String
  phonetic : Option String
  definition : Option String
  examples : List ExampleSentence
  usageGuide : Option String
  imageUrl : Option String
  savedAt : Nat
deriving DecidableEq, Repr

/-- Shallow embedding of the `toggleSave` handler from App.tsx: with no
current result it does nothing; when the notebook already holds an entry
with the current result's term (`.find` returns a match) it filters out
every entry with that term; otherwise it prepends the current result. -/
def toggleSave (currentResult : Option DictionaryEntry)
    (notebook : List DictionaryEntry) : List DictionaryEntry :=
  match currentResult with
  | none => notebook
  | some cur =>
    if notebook.any (fun n => n.term == cur.term) then
      notebook.filter (fun n => n.term != cur.term)
    else
      cur :: notebook

/-- The fields `JSON.parse` of the text-analysis response yields in
`lookupTerm`, each `none` when the parsed JSON lacks it. -/
structure TextData where
  definition : Option String
  phonetic : Option String
  examples : Option (List ExampleSentence)
  usageGuide : Option String
deriving DecidableEq, Repr

/-- The `inlineData` payload of a generation response part. -/
structure InlineData where
  mimeType : String
  data : String
deriving DecidableEq, Repr

/-- A part of the image-generation response: it may or may not carry
`inlineData`. -/
structure ResponsePart where
  inlineData : Option InlineData
deriving DecidableEq, Repr

/-- Oracle input to `lookupTerm`: outcomes of its two external calls.
`textResult` combines the text `generateContent` call with the subsequent
`JSON.parse` (either can throw, and neither throw is caught); `imageResult`
is the image `generateContent` call with its parts list; `now` is
`Date.now()`. -/
structure LookupEnv where
  textResult : Except JsError TextData
  imageResult : Except JsError (List ResponsePart)
  now : Nat
deriving Repr

/-- The loop over the image response's parts in `lookupTerm`: the data URL
built from the first part carrying `inlineData`, if any. -/
def firstInlineImageUrl : List ResponsePart → Option String
  | [] => none
  | p :: rest =>
    match p.inlineData with
    | some d => some ("data:" ++ d.mimeType ++ ";base64," ++ d.data)
    | none => firstInlineImageUrl rest

/-- Shallow embedding of `lookupTerm(term, nativeLang, targetLang)` from
src/services/geminiService.ts.  A failure of the text-analysis step (or of
parsing its JSON) propagates to the caller; the image-generation step runs
inside its own `try`, so its failure only leaves `imageUrl` undefined.  The
returned entry copies the parsed text fields (`examples` defaulting to `[]`),
stamps `id` and `savedAt` from `Date.now()`, and keeps the queried term. -/
def lookupTerm (term : String) (env : LookupEnv) :
    Except JsError DictionaryEntry :=
  match env.textResult with
  | .error e => .error e
  | .ok textData =>
    let imageUrl : Option String :=
      match env.imageResult with
      | .error _ => none
      | .ok parts => firstInlineImageUrl parts
    .ok {
      id := toString env.now,
      term := term,
      phonetic := textData.phonetic,
      definition := textData.definition,
      examples := textData.examples.getD [],
      usageGuide := textData.usageGuide,
      imageUrl := imageUrl,
      savedAt := env.now
    }

/-- Image-step outcomes that leave `lookupTerm`'s `imageUrl` unset: the
image call threw, or no part of its response carried `inlineData`. -/
def imageUnavailable (r : Except JsError (List ResponsePart)) : Bool :=
  match r with
  | .error _ => true
  | .ok parts => (firstInlineImageUrl parts).isNone

/-! ## Concrete values used by the witnesses -/

/-- Decoding the bytes `[0x00, 0x00, 0xFF, 0x7F]` as one channel at 24000 Hz
yields this buffer: two frames holding `0` and `32767/32768`. -/
def demoBuffer : JsAudioBuffer :=
  ⟨1, 2, 24000, [[JsNum.val 0, JsNum.val (32767 / 32768)]]⟩

/-- A notebook entry used by the `toggleSave` witness. -/
def savedEntry : DictionaryEntry :=
  ⟨"1", "hola", some "OH-lah", some "hello", [], some "greeting", none, 100⟩

/-- A current result, with a term distinct from `savedEntry`, used by the
`toggleSave` witness. -/
def currentEntry : DictionaryEntry :=
  ⟨"2", "amigo", none, some "friend",
    [⟨"Hola, amigo.", "Hello, friend."⟩], some "casual", none, 200⟩

/-- A parsed text-analysis result used by the `lookupTerm` witness. -/
def demoTextData : TextData :=
  ⟨some "a greeting", some "OH-lah", some [⟨"¡Hola!", "Hello!"⟩],
    some "friendly"⟩

/-- A `lookupTerm` environment whose text step succeeds and whose image step
throws. -/
def demoLookupEnv : LookupEnv :=
  ⟨.ok demoTextData, .error ⟨"image model unavailable"⟩, 42⟩

/-! ## Decoder lemmas -/

/-- The `Int16Array` view fails exactly on odd byte lengths. -/
theorem int16View_eq_none_iff (data : List Nat) :
    int16View data = none ↔ data.length % 2 = 1 := by
  induction data using int16View.induct with
  | case1 => simp [int16View]
  | case2 head => simp [int16View]
  | case3 lo hi rest ih =>
    simp only [int16View, Option.map_eq_none', List.length_cons]
    rw [ih]
    omega

/-- Length and entries of a successfully constructed `Int16Array` view:
there are half as many 16-bit samples as bytes, and sample `j` is the
little-endian integer at byte offset `2*j`. -/
theorem int16View_spec (data : List Nat) (l : List Int)
    (h : int16View data = some l) :
    l.length = data.length / 2 ∧
      ∀ j, j < l.length → l[j]? = some (int16At data j) := by
  induction data using int16View.induct generalizing l with
  | case1 =>
    simp only [int16View, Option.some.injEq] at h
    subst h
    simp
  | case2 head => simp [int16View] at h
  | case3 lo hi rest ih =>
    simp only [int16View, Option.map_eq_some'] at h
    obtain ⟨l', hl', rfl⟩ := h
    obtain ⟨hlen, hget⟩ := ih l' hl'
    constructor
    · simp only [List.length_cons, List.length_cons, hlen]
      omega
    · intro j hj
      match j with
      | 0 =>
        simp [int16At, int16FromBytes, List.getD]
      | j + 1 =>
        simp only [List.length_cons] at hj
        have h2 : 2 * (j + 1) = 2 * j + 1 + 1 := by ring
        have h3 : 2 * (j + 1) + 1 = (2 * j + 1) + 1 + 1 := by ring
        simp only [List.getElem?_cons_succ]
        rw [hget j (by omega)]
        simp [int16At, h2, h3, List.getD_cons_succ]

/-- Unfolding one iteration of the channel-filling loop. -/
theorem fillChannel_succ (d : List Int) (nc c n : Nat) (a : List JsNum) :
    fillChannel d nc c (n + 1) a =
      jsTypedArraySet (fillChannel d nc c n a) n (jsSampleRead d (n * nc + c)) := by
  simp [fillChannel, List.range_succ]

/-- The channel-filling loop never changes the array's length. -/
theorem fillChannel_length (d : List Int) (nc c n : Nat) (a : List JsNum) :
    (fillChannel d nc c n a).length = a.length := by
  induction n with
  | zero => simp [fillChannel]
  | succ n ih => rw [fillChannel_succ]; simpa [jsTypedArraySet] using ih

/-- Entry `j` after the channel-filling loop: the sample value whenever the
loop reached `j` in range, the initial entry otherwise. -/
theorem fillChannel_getElem? (d : List Int) (nc c n : Nat) (a : List JsNum)
    (j : Nat) :
    (fillChannel d nc c n a)[j]? =
      if j < n ∧ j < a.length then some (jsSampleRead d (j * nc + c))
      else a[j]? := by
  induction n with
  | zero => simp [fillChannel]
  | succ n ih =>
    rw [fillChannel_succ, jsTypedArraySet, List.getElem?_set]
    by_cases hnj : n = j
    · subst hnj
      rw [fillChannel_length]
      by_cases hna : n < a.length
      · simp [hna]
      · have : a[n]? = none := List.getElem?_eq_none (by omega)
        simp [hna, ih, this]
    · have hiff : (j < n + 1 ∧ j < a.length) ↔ (j < n ∧ j < a.length) := by
        omega
      rw [if_neg hnj, ih]
      simp only [hiff]

/-- Full characterization of a successful decode: under a positive channel
count, an even byte length and at least one complete frame, `decodeAudioData`
succeeds and produces `numChannels` channels of `⌊samples / numChannels⌋`
frames each, channel `c`'s frame `i` holding the 16-bit integer at interleave
position `i * numChannels + c` divided by `32768`. -/
theorem decodeAudioData_ok_spec (data : List Nat) (sr nc : Nat)
    (hnc : 0 < nc) (heven : data.length % 2 = 0)
    (hlen : nc ≤ data.length / 2) :
    ∃ buf, decodeAudioData data sr (nc : Int) = .ok buf ∧
      buf.numberOfChannels = nc ∧
      buf.length = data.length / 2 / nc ∧
      buf.sampleRate = sr ∧
      buf.channelData.length = nc ∧
      (∀ ch ∈ buf.channelData, ch.length = data.length / 2 / nc) ∧
      ∀ c, c < nc → ∀ i, i < data.length / 2 / nc →
        sampleAt buf c i =
          some (.val ((int16At data (i * nc + c) : ℚ) / 32768)) := by
  obtain ⟨l, hl⟩ : ∃ l, int16View data = some l := by
    cases hv : int16View data with
    | none => rw [int16View_eq_none_iff] at hv; omega
    | some l => exact ⟨l, rfl⟩
  obtain ⟨hllen, hlget⟩ := int16View_spec data l hl
  rw [← hllen]
  have hncl : nc ≤ l.length := by omega
  have hbufpos : 0 < l.length / nc := Nat.div_pos hncl hnc
  have hcond : ¬((nc : Int) ≤ 0 ∨ l.length / nc = 0) := by
    push_neg
    exact ⟨by exact_mod_cast hnc, by omega⟩
  have hdec : decodeAudioData data sr (nc : Int) =
      .ok ⟨nc, l.length / nc, sr,
        (List.range nc).map (fun channel =>
          fillChannel l nc channel ((l.length + nc - 1) / nc)
            (List.replicate (l.length / nc) (JsNum.val 0)))⟩ := by
    unfold decodeAudioData
    rw [hl]
    simp only [Int.toNat_natCast, createBuffer, if_neg hcond]
  refine ⟨_, hdec, rfl, rfl, rfl, by simp, ?_, ?_⟩
  · intro ch hch
    simp only [List.mem_map] at hch
    obtain ⟨c, _, rfl⟩ := hch
    rw [fillChannel_length, List.length_replicate]
  · intro c hc i hi
    have hidx : i * nc + c < l.length := by
      have h1 : i * nc + c < (i + 1) * nc := by
        have : c < nc := hc
        nlinarith
      have h2 : (i + 1) * nc ≤ (l.length / nc) * nc :=
        Nat.mul_le_mul_right nc (by omega)
      have h3 : (l.length / nc) * nc ≤ l.length := Nat.div_mul_le_self _ _
      omega
    have hread : jsSampleRead l (i * nc + c) =
        .val ((int16At data (i * nc + c) : ℚ) / 32768) := by
      rw [jsSampleRead, hlget (i * nc + c) hidx]
    have hchan :
        ((List.range nc).map (fun channel =>
            fillChannel l nc channel ((l.length + nc - 1) / nc)
              (List.replicate (l.length / nc) (JsNum.val 0)))).getD c [] =
          fillChannel l nc c ((l.length + nc - 1) / nc)
            (List.replicate (l.length / nc) (JsNum.val 0)) := by
      rw [List.getD_eq_getElem?_getD, List.getElem?_map, List.getElem?_range hc]
      rfl
    rw [sampleAt]
    show (((List.range nc).map (fun channel =>
        fillChannel l nc channel ((l.length + nc - 1) / nc)
          (List.replicate (l.length / nc) (JsNum.val 0)))).getD c [])[i]? = _
    rw [hchan, fillChannel_getElem?]
    have hmono : l.length / nc ≤ (l.length + nc - 1) / nc :=
      Nat.div_le_div_right (by omega)
    rw [if_pos ⟨by omega, by simpa using hi⟩, hread]

/-- Inversion of a successful decode: success forces a positive channel
count, an even byte length and at least one complete frame. -/
theorem decodeAudioData_ok_inversion (data : List Nat) (sr : Nat)
    (numChannels : Int) (buf : JsAudioBuffer)
    (h : decodeAudioData data sr numChannels = .ok buf) :
    0 < numChannels ∧ data.length % 2 = 0 ∧
      numChannels.toNat ≤ data.length / 2 := by
  unfold decodeAudioData at h
  cases hv : int16View data with
  | none => rw [hv] at h; cases h
  | some l =>
    rw [hv] at h
    have heven : data.length % 2 = 0 := by
      by_contra hodd
      have hnone : int16View data = none := by
        rw [int16View_eq_none_iff]; omega
      rw [hnone] at hv
      cases hv
    obtain ⟨hllen, -⟩ := int16View_spec data l hv
    by_cases hc : numChannels ≤ 0 ∨ l.length / numChannels.toNat = 0
    · simp only [createBuffer, if_pos hc] at h
      cases h
    · push_neg at hc
      obtain ⟨h1, h2⟩ := hc
      have htpos : 0 < numChannels.toNat := by omega
      have hnlt : ¬ l.length < numChannels.toNat := fun hlt =>
        h2 ((Nat.div_eq_zero_iff htpos).2 hlt)
      exact ⟨by omega, heven, by omega⟩

/-- Samples of any successful decode, keyed to the caller-visible quantities:
for channel `c` and frame `i` below `⌊byteLength / (2 * numChannels)⌋`, the
sample is the 16-bit integer at interleave position `i * numChannels + c`
divided by `32768`. -/
theorem decode_sample_of_ok (data : List Nat) (sr nc : Nat) (hnc : 0 < nc)
    (buf : JsAudioBuffer)
    (hok : decodeAudioData data sr (nc : Int) = .ok buf)
    (c i : Nat) (hc : c < nc) (hi : i < data.length / (2 * nc)) :
    sampleAt buf c i = some (.val ((int16At data (i * nc + c) : ℚ) / 32768)) := by
  obtain ⟨-, heven, hle⟩ := decodeAudioData_ok_inversion data sr _ buf hok
  rw [Int.toNat_natCast] at hle
  obtain ⟨buf', hdec, -, -, -, -, -, hsamp⟩ :=
    decodeAudioData_ok_spec data sr nc hnc heven hle
  rw [hok] at hdec
  injection hdec with hbe
  subst hbe
  exact hsamp c hc i (by rwa [Nat.div_div_eq_div_mul])

/-- Concrete evaluation of the decoder on the specification's worked
example. -/
theorem decode_demo :
    decodeAudioData [0, 0, 255, 127] 24000 ((1 : Nat) : Int) = .ok demoBuffer := by
  simp [decodeAudioData, int16View, createBuffer, fillChannel, jsTypedArraySet,
    jsSampleRead, int16FromBytes, List.range_succ, demoBuffer]

/-! ## Claim theorems -/

/-- C1.  For every byte input whose length is an exact multiple of
`2 * numChannels` and every positive `numChannels`, the decoder groups the
bytes into 16-bit little-endian signed integers and, for every channel
`c < numChannels` and frame `i` below the frame count
`⌊byteLength / (2 * numChannels)⌋`, the output sample `i` of channel `c` is
the 16-bit integer at interleave position `i * numChannels + c` divided by
`32768`. -/
theorem decode_interleaved_sample_values (data : List Nat) (sr nc : Nat)
    (hnc : 0 < nc) (hmul : data.length % (2 * nc) = 0)
    (buf : JsAudioBuffer)
    (hok : decodeAudioData data sr (nc : Int) = .ok buf)
    (c i : Nat) (hc : c < nc) (hi : i < data.length / (2 * nc)) :
    sampleAt buf c i = some (.val ((int16At data (i * nc + c) : ℚ) / 32768)) :=
  decode_sample_of_ok data sr nc hnc buf hok c i hc hi

/-- Witness for C1 at the specification's worked example
`[0x00, 0x00, 0xFF, 0x7F]`, one channel: frame 1 of channel 0 is
`32767 / 32768`. -/
theorem decode_interleaved_sample_values_witness :
    sampleAt demoBuffer 0 1 =
      some (.val ((int16At [0, 0, 255, 127] (1 * 1 + 0) : ℚ) / 32768)) :=
  decode_interleaved_sample_values [0, 0, 255, 127] 24000 1 (by decide)
    (by decide) demoBuffer decode_demo 0 1 (by decide) (by decide)

/-- C2, counterexample.  Two zero bytes with `numChannels = 2` leave one
16-bit sample that completes no frame: the claim says it is discarded with
frame count 0 and no error, but the decoder throws a `NotSupportedError`
(`createBuffer` rejects a zero frame length). -/
theorem decode_leftover_zero_frames_error :
    decodeAudioData [0, 0] 24000 2 = .error .notSupportedError := rfl

/-- C2, amended.  For every byte input of even length holding at least one
complete frame (`2 * numChannels ≤ byteLength`), decoding succeeds, the
frame count is `⌊sampleCount / numChannels⌋`, and leftover 16-bit samples
that complete no frame are discarded without an error. -/
theorem decode_frame_count_floor (data : List Nat) (sr nc : Nat)
    (hnc : 0 < nc) (heven : data.length % 2 = 0)
    (hge : 2 * nc ≤ data.length) :
    ∃ buf, decodeAudioData data sr (nc : Int) = .ok buf ∧
      buf.length = data.length / 2 / nc := by
  have hle : nc ≤ data.length / 2 := by omega
  obtain ⟨buf, hdec, -, hlen, -, -, -, -⟩ :=
    decodeAudioData_ok_spec data sr nc hnc heven hle
  exact ⟨buf, hdec, hlen⟩

/-- Witness for the amended C2: seven 16-bit samples over two channels give
three frames, the odd sample out being dropped without an error. -/
theorem decode_frame_count_floor_witness :
    ∃ buf, decodeAudioData [1, 0, 2, 0, 3, 0, 4, 0, 5, 0, 6, 0, 7, 0] 24000
        ((2 : Nat) : Int) = .ok buf ∧
      buf.length = [1, 0, 2, 0, 3, 0, 4, 0, 5, 0, 6, 0, 7, 0].length / 2 / 2 :=
  decode_frame_count_floor [1, 0, 2, 0, 3, 0, 4, 0, 5, 0, 6, 0, 7, 0] 24000 2
    (by decide) (by decide) (by decide)

/-- C3.  For every byte input, a channel count of zero or below makes the
decoder fail with an error (the `Int16Array` `RangeError` on odd input, the
`createBuffer` `NotSupportedError` otherwise) instead of returning a decoded
buffer. -/
theorem decode_nonpositive_channels_fails (data : List Nat) (sr : Nat)
    (numChannels : Int) (h : numChannels ≤ 0) :
    ∃ e, decodeAudioData data sr numChannels = .error e := by
  unfold decodeAudioData
  cases hv : int16View data with
  | none => exact ⟨.rangeError, rfl⟩
  | some l =>
    refine ⟨.notSupportedError, ?_⟩
    simp only [createBuffer, if_pos (Or.inl h)]

/-- Witness for C3 at `numChannels = 0` on empty input. -/
theorem decode_nonpositive_channels_fails_witness :
    ∃ e, decodeAudioData [] 24000 0 = .error e :=
  decode_nonpositive_channels_fails [] 24000 0 (by decide)

/-- C4.  On input whose length is an exact multiple of `2 * numChannels`,
re-quantizing any decoded sample (scaling by `32768` and rounding) lands
within one unit of the original 16-bit integer — in fact the round trip is
exact, so the distance is 0. -/
theorem decode_requantize_within_one (data : List Nat) (sr nc : Nat)
    (hnc : 0 < nc) (hmul : data.length % (2 * nc) = 0)
    (buf : JsAudioBuffer)
    (hok : decodeAudioData data sr (nc : Int) = .ok buf)
    (c i : Nat) (hc : c < nc) (hi : i < data.length / (2 * nc)) :
    ∃ q : ℚ, sampleAt buf c i = some (.val q) ∧
      |requantize q - int16At data (i * nc + c)| ≤ 1 := by
  refine ⟨(int16At data (i * nc + c) : ℚ) / 32768,
    decode_sample_of_ok data sr nc hnc buf hok c i hc hi, ?_⟩
  have hcancel : ((int16At data (i * nc + c) : ℚ) / 32768) * 32768 =
      (int16At data (i * nc + c) : ℚ) :=
    div_mul_cancel₀ _ (by norm_num)
  rw [requantize, hcancel, round_intCast]
  simp

/-- Witness for C4 at the worked example: requantizing frame 1 of channel 0
recovers 32767 exactly. -/
theorem decode_requantize_within_one_witness :
    ∃ q : ℚ, sampleAt demoBuffer 0 1 = some (.val q) ∧
      |requantize q - int16At [0, 0, 255, 127] (1 * 1 + 0)| ≤ 1 :=
  decode_requantize_within_one [0, 0, 255, 127] 24000 1 (by decide) (by decide)
    demoBuffer decode_demo 0 1 (by decide) (by decide)

/-- C5, counterexample.  On the claim's own scenario — five bytes, one
channel — the decoder does not ignore the dangling byte: constructing the
`Int16Array` view throws a `RangeError`, so no two-frame buffer is
produced. -/
theorem decode_five_bytes_rangeError :
    decodeAudioData [0, 0, 0, 0, 0] 24000 1 = .error .rangeError := rfl

/-- C5, amended.  Input of odd byte length (such as five bytes with one
channel) is rejected with a `RangeError` from the `Int16Array` view; the
dangling byte is not silently ignored. -/
theorem decode_odd_length_rangeError (data : List Nat) (sr : Nat)
    (numChannels : Int) (h : data.length % 2 = 1) :
    decodeAudioData data sr numChannels = .error .rangeError := by
  have hv : int16View data = none := (int16View_eq_none_iff data).2 h
  unfold decodeAudioData
  rw [hv]

/-- Witness for the amended C5 at a five-byte input. -/
theorem decode_odd_length_rangeError_witness :
    decodeAudioData [1, 2, 3, 4, 5] 24000 1 = .error .rangeError :=
  decode_odd_length_rangeError [1, 2, 3, 4, 5] 24000 1 (by decide)

/-- C6, counterexample.  Decoding the empty byte sequence with one channel
does not yield a zero-frame buffer: `createBuffer` rejects a zero frame
length, so the decoder throws a `NotSupportedError`. -/
theorem decode_empty_input_error :
    decodeAudioData [] 24000 1 = .error .notSupportedError := rfl

/-- C6, amended.  For every positive `numChannels`, decoding an empty byte
sequence fails with a `NotSupportedError` (zero-length audio buffers are not
allowed) rather than succeeding with zero frames per channel. -/
theorem decode_empty_notSupported (sr : Nat) (numChannels : Int)
    (h : 0 < numChannels) :
    decodeAudioData [] sr numChannels = .error .notSupportedError := by
  unfold decodeAudioData
  simp [int16View, createBuffer]

/-- Witness for the amended C6 at two channels. -/
theorem decode_empty_notSupported_witness :
    decodeAudioData [] 44100 2 = .error .notSupportedError :=
  decode_empty_notSupported 44100 2 (by decide)

/-- C7.  Whenever decoding succeeds with a positive channel count, it
produces exactly `numChannels` channel sequences and each has exactly the
buffer's frame count of samples. -/
theorem decode_channel_lengths (data : List Nat) (sr nc : Nat) (hnc : 0 < nc)
    (buf : JsAudioBuffer)
    (hok : decodeAudioData data sr (nc : Int) = .ok buf) :
    buf.channelData.length = nc ∧
      ∀ ch ∈ buf.channelData, ch.length = buf.length := by
  obtain ⟨-, heven, hle⟩ := decodeAudioData_ok_inversion data sr _ buf hok
  rw [Int.toNat_natCast] at hle
  obtain ⟨buf', hdec, -, hlen, -, hcd, hchs, -⟩ :=
    decodeAudioData_ok_spec data sr nc hnc heven hle
  rw [hok] at hdec
  injection hdec with hbe
  subst hbe
  exact ⟨hcd, fun ch hch => by rw [hchs ch hch, hlen]⟩

/-- Witness for C7 at the worked example: one channel of two frames. -/
theorem decode_channel_lengths_witness :
    demoBuffer.channelData.length = 1 ∧
      ∀ ch ∈ demoBuffer.channelData, ch.length = demoBuffer.length :=
  decode_channel_lengths [0, 0, 255, 127] 24000 1 (by decide) demoBuffer
    decode_demo

/-- C8.  `playAudio` speaks the original raw text through the platform
text-to-speech fallback exactly when the primary audio path fails (the
generation call rejects, the response carries no audio data, or decoding
throws), and hands a decoded buffer to playback exactly when the primary
path succeeds. -/
theorem playAudio_fallback_iff (text : String) (env : TtsEnv) :
    (playAudio text env = .spokeFallback text ↔ primaryPathFails env = true) ∧
      ((∃ buffer, playAudio text env = .playedBuffer buffer) ↔
        primaryPathFails env = false) := by
  unfold playAudio primaryPathFails
  cases hg : env.generateResult with
  | error e => simp
  | ok resp =>
    cases ha : resp.audioData with
    | none => simp [ha]
    | some bytes =>
      cases hd : decodeAudioData bytes 24000 1 with
      | error e => simp [ha, hd]
      | ok buffer => simp [ha, hd]

/-- C9.  `toggleSave` preserves pairwise distinctness of the notebook's
terms: it either removes every entry sharing the current result's term or
prepends the current result when its term is absent. -/
theorem toggleSave_distinct_terms (currentResult : Option DictionaryEntry)
    (notebook : List DictionaryEntry)
    (h : notebook.Pairwise (fun a b => a.term ≠ b.term)) :
    (toggleSave currentResult notebook).Pairwise
      (fun a b => a.term ≠ b.term) := by
  cases currentResult with
  | none => exact h
  | some cur =>
    simp only [toggleSave]
    by_cases hex : notebook.any (fun n => n.term == cur.term) = true
    · rw [if_pos hex]
      exact h.sublist (List.filter_sublist _)
    · rw [if_neg hex]
      refine List.Pairwise.cons ?_ h
      intro b hb
      simp only [List.any_eq_true, beq_iff_eq, not_exists, not_and] at hex
      exact fun hterm => hex b hb hterm.symm

/-- Witness for C9: toggling a fresh term onto a one-entry notebook keeps
the terms pairwise distinct. -/
theorem toggleSave_distinct_terms_witness :
    (toggleSave (some currentEntry) [savedEntry]).Pairwise
      (fun a b => a.term ≠ b.term) :=
  toggleSave_distinct_terms (some currentEntry) [savedEntry] (by simp)

/-- C10.  When the text-analysis step of `lookupTerm` succeeds, the lookup
succeeds regardless of the image step: the returned entry keeps the queried
term and copies the parsed text fields, and its `imageUrl` is unset whenever
the image step threw or returned no inline data. -/
theorem lookupTerm_text_success (term : String) (env : LookupEnv)
    (td : TextData) (htext : env.textResult = .ok td) :
    ∃ entry, lookupTerm term env = .ok entry ∧
      entry.term = term ∧
      entry.definition = td.definition ∧
      entry.phonetic = td.phonetic ∧
      entry.usageGuide = td.usageGuide ∧
      entry.examples = td.examples.getD [] ∧
      (imageUnavailable env.imageResult = true → entry.imageUrl = none) := by
  unfold lookupTerm
  rw [htext]
  refine ⟨_, rfl, rfl, rfl, rfl, rfl, rfl, ?_⟩
  intro him
  unfold imageUnavailable at him
  cases hi : env.imageResult with
  | error e => simp
  | ok parts =>
    rw [hi] at him
    simpa using him

/-- Witness for C10: a successful text step with a throwing image step
yields an entry copying the text fields with no image URL. -/
theorem lookupTerm_text_success_witness :
    ∃ entry, lookupTerm "hola" demoLookupEnv = .ok entry ∧
      entry.term = "hola" ∧
      entry.definition = demoTextData.definition ∧
      entry.phonetic = demoTextData.phonetic ∧
      entry.usageGuide = demoTextData.usageGuide ∧
      entry.examples = demoTextData.examples.getD [] ∧
      (imageUnavailable demoLookupEnv.imageResult = true →
        entry.imageUrl = none) :=
  lookupTerm_text_success "hola" demoLookupEnv demoTextData rfl

end LingoPop
